import Mathlib

/-!
Verification of the hello-edge-tts python client core
(tts_client.py, ssml_utils.py, config_manager.py).

The per-unit synthesis capability is modelled as a function
`synth : String → Except String α` (audio bytes abstracted to `α`):
it either produces audio or fails with a message, exactly as
`TTSClient.synthesize_text` does from the batch code's point of view.

The asyncio layer of `batch_synthesize_concurrent` is modelled as follows:
one task per input text is created in input order
(`synthesize_with_semaphore(text, i)`); each task performs exactly one
synthesis call and either returns the pair `(index, audio)` or raises a
`TTSError` naming its 1-based item number.  `asyncio.gather` returns the
task results in task-creation order when every task succeeds, and
propagates the exception of the task that fails first in completion
order otherwise; completion order is external nondeterminism, so it is
an explicit parameter `order : List Nat` (the task indices in the order
in which the tasks complete).
-/

namespace HelloEdgeTTS

/-- Error text of the TTSError raised by the loop body of
`TTSClient.batch_synthesize_text` for the item at 0-based index i
(the python message uses the 1-based number i+1). -/
def batch_item_err (i : Nat) (e : String) : String :=
  "Failed to synthesize batch item " ++ Nat.repr (i + 1) ++ ": " ++ e

/-- Error text of the TTSError raised by `synthesize_with_semaphore`
inside `TTSClient.batch_synthesize_concurrent` for the item at 0-based
index i. -/
def concurrent_item_err (i : Nat) (e : String) : String :=
  "Failed to synthesize concurrent item " ++ Nat.repr (i + 1) ++ ": " ++ e

/-- The sequential loop of `TTSClient.batch_synthesize_text`, carrying the
running 0-based item index `i`.  The first component of the result is the
exact sequence of texts passed to the synthesis capability (the call
trace); the second is the returned list or the raised error. -/
def batchSynthTextFrom (synth : String → Except String α) (i : Nat) :
    List String → List String × Except String (List α)
  | [] => ([], .ok [])
  | t :: ts =>
    match synth t with
    | .error e => ([t], .error (batch_item_err i e))
    | .ok a =>
      let r := batchSynthTextFrom synth (i + 1) ts
      (t :: r.1, r.2.map (fun l => a :: l))

/-- `TTSClient.batch_synthesize_text`: iterate over the texts in order,
synthesizing each one; the first failure aborts the whole batch with a
TTSError naming the failing item.  Returns the synthesis-call trace and
the outcome. -/
def batch_synthesize_text (synth : String → Except String α)
    (texts : List String) : List String × Except String (List α) :=
  batchSynthTextFrom synth 0 texts

/-- Python's `enumerate`, starting at `i`. -/
def enumFrom (i : Nat) : List α → List (Nat × α)
  | [] => []
  | x :: xs => (i, x) :: enumFrom (i + 1) xs

/-- Outcome of one `synthesize_with_semaphore(text, index)` task:
on success the pair `(index, audio)`, on failure the wrapped TTSError. -/
def taskOutcome (synth : String → Except String α) (i : Nat) (t : String) :
    Except String (Nat × α) :=
  match synth t with
  | .ok a => .ok (i, a)
  | .error e => .error (concurrent_item_err i e)

/-- The outcomes of the task list
`tasks = [synthesize_with_semaphore(text, i) for i, text in enumerate(texts)]`,
one task (hence exactly one synthesis call) per input text, in
task-creation order. -/
def taskOutcomes (synth : String → Except String α) (texts : List String) :
    List (Except String (Nat × α)) :=
  (enumFrom 0 texts).map (fun p => taskOutcome synth p.1 p.2)

/-- The error of the first task, in completion order, whose outcome is a
failure (indices outside the task list are skipped). -/
def firstErrorIn (os : List (Except String β)) : List Nat → Option String
  | [] => none
  | i :: rest =>
    match os[i]? with
    | some (.error e) => some e
    | _ => firstErrorIn os rest

/-- `asyncio.gather(*tasks)`: if some task fails, the exception of the
first task to fail in completion order propagates; otherwise the list of
task results in task-creation order is returned. -/
def gatherModel (os : List (Except String β)) (order : List Nat) :
    Except String (List β) :=
  match firstErrorIn os order with
  | some e => .error e
  | none => .ok (os.filterMap Except.toOption)

/-- `results.sort(key=lambda x: x[0])`: a stable sort of the tagged
results by original index. -/
def sortByIndex (l : List (Nat × α)) : List (Nat × α) :=
  l.insertionSort (fun a b => a.1 ≤ b.1)

/-- `TTSClient.batch_synthesize_concurrent`: create one task per text,
gather them, sort the gathered pairs by original index and strip the
indices.  `order` is the completion order of the tasks (external
nondeterminism of the event loop and the network). -/
def batch_synthesize_concurrent (synth : String → Except String α)
    (texts : List String) (order : List Nat) : Except String (List α) :=
  match gatherModel (taskOutcomes synth texts) order with
  | .error e => .error e
  | .ok tagged => .ok ((sortByIndex tagged).map Prod.snd)

/- ### Helper lemmas about the concurrent model -/

theorem enumFrom_map_snd (l : List α) : ∀ i, (enumFrom i l).map Prod.snd = l := by
  induction l with
  | nil => intro i; rfl
  | cons x xs ih => intro i; simp [enumFrom, ih]

theorem enumFrom_key_le (l : List α) :
    ∀ i, ∀ p ∈ enumFrom i l, i ≤ p.1 := by
  induction l with
  | nil => intro i p hp; simp [enumFrom] at hp
  | cons x xs ih =>
    intro i p hp
    simp only [enumFrom, List.mem_cons] at hp
    rcases hp with h | h
    · simp [h]
    · exact Nat.le_of_succ_le (ih (i + 1) p h)

theorem enumFrom_sorted (l : List α) :
    ∀ i, List.Sorted (fun a b : Nat × α => a.1 ≤ b.1) (enumFrom i l) := by
  induction l with
  | nil => intro i; simp [enumFrom]
  | cons x xs ih =>
    intro i
    simp only [enumFrom, List.sorted_cons]
    exact ⟨fun p hp => Nat.le_of_succ_le (enumFrom_key_le xs (i + 1) p hp), ih (i + 1)⟩

theorem enumFrom_getElem? (l : List α) :
    ∀ i k, (enumFrom i l)[k]? = (l[k]?).map (fun x => (i + k, x)) := by
  induction l with
  | nil => intro i k; simp [enumFrom]
  | cons x xs ih =>
    intro i k
    cases k with
    | zero => simp [enumFrom]
    | succ k =>
      simp only [enumFrom, List.getElem?_cons_succ, ih (i + 1) k]
      cases xs[k]? <;> simp [Nat.add_assoc, Nat.add_comm 1 k]

theorem sortByIndex_sorted_eq (l : List (Nat × α))
    (h : List.Sorted (fun a b : Nat × α => a.1 ≤ b.1) l) : sortByIndex l = l :=
  List.Sorted.insertionSort_eq h

/-- When every text synthesizes successfully (with value `g t`), the task
outcomes are exactly the enumerated successes. -/
theorem taskOutcomes_of_success (synth : String → Except String α)
    (g : String → α) (ts : List String)
    (h : ∀ t ∈ ts, synth t = .ok (g t)) :
    ∀ i, (enumFrom i ts).map (fun p => taskOutcome synth p.1 p.2)
      = (enumFrom i (ts.map g)).map Except.ok := by
  induction ts with
  | nil => intro i; rfl
  | cons t ts ih =>
    intro i
    have ht : synth t = .ok (g t) := h t (by simp)
    simp only [enumFrom, List.map_cons, List.map_map]
    have hhead : taskOutcome synth i t = Except.ok (i, g t) := by
      simp [taskOutcome, ht]
    rw [hhead, ih (fun t ht' => h t (by simp [ht'])) (i + 1)]

theorem firstErrorIn_of_all_ok (l : List β) :
    ∀ order, firstErrorIn (l.map Except.ok) order = none := by
  intro order
  induction order with
  | nil => rfl
  | cons i rest ih =>
    simp only [firstErrorIn, List.getElem?_map]
    cases h : l[i]? <;> simp [h, ih]

theorem filterMap_toOption_map_ok (l : List β) :
    (l.map (Except.ok (ε := String))).filterMap Except.toOption = l := by
  rw [List.filterMap_map]
  have : (Except.toOption ∘ Except.ok (ε := String)) = (some : β → Option β) := by
    funext x; rfl
  rw [this, List.filterMap_some]

/- ### C1 -/

/-- C1: for every list of texts, every concurrency limit K ≥ 1 and every
completion order, if every per-unit synthesis call succeeds then
batch_synthesize_concurrent returns a list of the same length as the
input whose element at position i is the audio synthesized from the text
at position i. -/
theorem batch_concurrent_preserves_order {α : Type} [Inhabited α]
    (synth : String → Except String α) (texts : List String)
    (order : List Nat) (K : Nat) (hK : 1 ≤ K)
    (h : ∀ t ∈ texts, ∃ a, synth t = .ok a) :
    ∃ l, batch_synthesize_concurrent synth texts order = .ok l ∧
      l.length = texts.length ∧
      ∀ i : Nat, (l[i]?).map Except.ok = (texts[i]?).map synth := by
  classical
  set g : String → α := fun t =>
    match synth t with
    | .ok a => a
    | .error _ => default with hg_def
  have hg : ∀ t ∈ texts, synth t = .ok (g t) := by
    intro t ht
    obtain ⟨a, ha⟩ := h t ht
    simp [hg_def, ha]
  refine ⟨texts.map g, ?_, by simp, ?_⟩
  · have houts : taskOutcomes synth texts
        = (enumFrom 0 (texts.map g)).map Except.ok :=
      taskOutcomes_of_success synth g texts hg 0
    have hfe : firstErrorIn ((enumFrom 0 (texts.map g)).map Except.ok) order = none :=
      firstErrorIn_of_all_ok _ order
    have hfil : ((enumFrom 0 (texts.map g)).map Except.ok).filterMap Except.toOption
        = enumFrom 0 (texts.map g) := filterMap_toOption_map_ok _
    have hsort : sortByIndex (enumFrom 0 (texts.map g)) = enumFrom 0 (texts.map g) :=
      sortByIndex_sorted_eq _ (enumFrom_sorted _ 0)
    unfold batch_synthesize_concurrent gatherModel
    rw [houts, hfe, hfil]
    show Except.ok ((sortByIndex (enumFrom 0 (texts.map g))).map Prod.snd) = _
    rw [hsort, enumFrom_map_snd]
  · intro i
    simp only [List.getElem?_map]
    cases ht : texts[i]? with
    | none => rfl
    | some t =>
      have : t ∈ texts := List.getElem?_mem ht
      simp [Option.map, hg t this]

/-- Witness for C1 at texts ["a","bb"], completion order [1,0], K = 2,
with a synthesis capability that always succeeds. -/
theorem batch_concurrent_preserves_order_witness :
    ∃ l, batch_synthesize_concurrent
        (fun t => (Except.ok t.length : Except String Nat))
        ["a", "bb"] [1, 0] = .ok l ∧
      l.length = (["a", "bb"] : List String).length ∧
      ∀ i : Nat, (l[i]?).map Except.ok
        = ((["a", "bb"] : List String)[i]?).map
            (fun t => (Except.ok t.length : Except String Nat)) :=
  batch_concurrent_preserves_order
    (fun t => (Except.ok t.length : Except String Nat))
    ["a", "bb"] [1, 0] 2 (by decide) (fun t _ => ⟨t.length, rfl⟩)

/- ### C2 -/

/-- Sequential loop: if the text at position j fails and every earlier
position succeeds, the loop aborts with the TTSError for item j (offset
by the starting index i0). -/
theorem batchSynthTextFrom_error (synth : String → Except String α) (e : String) :
    ∀ (ts : List String) (j i0 : Nat) (tj : String),
      ts[j]? = some tj → synth tj = .error e →
      (∀ k t, k < j → ts[k]? = some t → ∃ a, synth t = .ok a) →
      (batchSynthTextFrom synth i0 ts).2 = .error (batch_item_err (i0 + j) e) := by
  intro ts
  induction ts with
  | nil => intro j i0 tj hj; simp at hj
  | cons t ts ih =>
    intro j i0 tj hj he hpre
    cases j with
    | zero =>
      simp only [List.getElem?_cons_zero, Option.some.injEq] at hj
      subst hj
      simp [batchSynthTextFrom, he]
    | succ j =>
      obtain ⟨a, ha⟩ := hpre 0 t (Nat.succ_pos j) (by simp)
      have htail := ih j (i0 + 1) tj (by simpa using hj) he
        (fun k t' hk hkt => hpre (k + 1) t' (Nat.succ_lt_succ hk) (by simpa using hkt))
      simp only [batchSynthTextFrom, ha]
      rw [show i0 + 1 + j = i0 + (j + 1) by omega] at htail
      simp [htail, Except.map]

/-- Completion-order scan: if the task at index j is the only failing one
and j occurs in the completion order, the scan reports j's error. -/
theorem firstErrorIn_unique_failure (os : List (Except String β)) (j : Nat)
    (e : String) (hj : os[j]? = some (.error e))
    (hother : ∀ i, i ≠ j → ∀ x, os[i]? = some x → ∃ y, x = .ok y) :
    ∀ order, j ∈ order → firstErrorIn os order = some e := by
  intro order
  induction order with
  | nil => intro h; simp at h
  | cons i rest ih =>
    intro hmem
    by_cases hij : i = j
    · subst hij
      simp [firstErrorIn, hj]
    · have hrest : j ∈ rest := by
        rcases List.mem_cons.mp hmem with h | h
        · exact absurd h.symm hij
        · exact h
      simp only [firstErrorIn]
      cases hx : os[i]? with
      | none => simpa using ih hrest
      | some x =>
        obtain ⟨y, hy⟩ := hother i hij x hx
        subst hy
        simpa using ih hrest

/-- C2 (amended): if synthesis fails at index j and succeeds at every
earlier index, batch_synthesize_text aborts with the TTSError naming
item j and returns no partial results (first conjunct); if moreover no
other index fails at all and task j completes (occurs in the completion
order), batch_synthesize_concurrent aborts with the TTSError naming item
j and returns no partial results (second conjunct). -/
theorem batch_error_references_failing_item
    (synth : String → Except String α) (texts : List String)
    (j : Nat) (tj : String) (e : String) (order : List Nat)
    (hj : texts[j]? = some tj) (he : synth tj = .error e)
    (hpre : ∀ k t, k < j → texts[k]? = some t → ∃ a, synth t = .ok a) :
    (batch_synthesize_text synth texts).2 = .error (batch_item_err j e) ∧
    ((∀ k t, k ≠ j → texts[k]? = some t → ∃ a, synth t = .ok a) →
      j ∈ order →
      batch_synthesize_concurrent synth texts order
        = .error (concurrent_item_err j e)) := by
  constructor
  · have := batchSynthTextFrom_error synth e texts j 0 tj hj he hpre
    simpa [batch_synthesize_text] using this
  · intro honly horder
    have hoget : ∀ i : Nat, (taskOutcomes synth texts)[i]?
        = (texts[i]?).map (fun t => taskOutcome synth i t) := by
      intro i
      simp only [taskOutcomes, List.getElem?_map, enumFrom_getElem?]
      cases texts[i]? <;> simp
    have hjo : (taskOutcomes synth texts)[j]?
        = some (.error (concurrent_item_err j e)) := by
      rw [hoget j, hj]
      simp [taskOutcome, he]
    have hother : ∀ i, i ≠ j → ∀ x, (taskOutcomes synth texts)[i]? = some x →
        ∃ y, x = .ok y := by
      intro i hij x hx
      rw [hoget i] at hx
      cases ht : texts[i]? with
      | none => rw [ht] at hx; simp at hx
      | some t =>
        rw [ht] at hx
        simp only [Option.map_some', Option.some.injEq] at hx
        obtain ⟨a, ha⟩ := honly i t hij ht
        refine ⟨(i, a), ?_⟩
        rw [← hx]
        simp [taskOutcome, ha]
    have hfe := firstErrorIn_unique_failure (taskOutcomes synth texts) j
      (concurrent_item_err j e) hjo hother order horder
    simp [batch_synthesize_concurrent, gatherModel, hfe]

/-- Witness for C2 at texts ["a","b"] where only "b" (index 1) fails,
with completion order [0,1]. -/
theorem batch_error_references_failing_item_witness :
    (batch_synthesize_text
        (fun t => if t = "b" then .error "boom" else (Except.ok 0 : Except String Nat))
        ["a", "b"]).2 = .error (batch_item_err 1 "boom") ∧
    batch_synthesize_concurrent
        (fun t => if t = "b" then .error "boom" else (Except.ok 0 : Except String Nat))
        ["a", "b"] [0, 1] = .error (concurrent_item_err 1 "boom") := by
  have h := batch_error_references_failing_item
    (fun t => if t = "b" then .error "boom" else (Except.ok 0 : Except String Nat))
    ["a", "b"] 1 "b" "boom" [0, 1] rfl rfl
    (by
      intro k t hk ht
      have hks : k = 0 := by omega
      subst hks
      simp only [List.getElem?_cons_zero, Option.some.injEq] at ht
      subst ht
      exact ⟨0, rfl⟩)
  refine ⟨h.1, h.2 ?_ (by decide)⟩
  intro k t hk ht
  cases k with
  | zero =>
    simp only [List.getElem?_cons_zero, Option.some.injEq] at ht
    subst ht
    exact ⟨0, rfl⟩
  | succ k =>
    cases k with
    | zero => exact absurd rfl hk
    | succ k => simp at ht

/-- C2 counterexample: with texts ["a","b"] and a synthesis capability
failing on every text, index 0 is the first failing index (and every
earlier index, vacuously, succeeds), yet when task 1 completes first the
concurrent batch raises the error naming item 2, not item 1. -/
theorem batch_concurrent_error_not_first_index_cex :
    batch_synthesize_concurrent
        (fun _ => (Except.error "boom" : Except String Nat))
        ["a", "b"] [1, 0] = .error (concurrent_item_err 1 "boom") ∧
    concurrent_item_err 1 "boom" ≠ concurrent_item_err 0 "boom" := by
  constructor
  · rfl
  · decide

/- ### C7 -/

/-- C7: on the empty input list the sequential batch returns an empty
result with an empty synthesis-call trace, the concurrent batch returns
an empty result for every completion order, and the concurrent task list
is empty (each task performs exactly one synthesis call, so no call is
made). -/
theorem batch_empty_input {α : Type} (synth : String → Except String α)
    (order : List Nat) :
    batch_synthesize_text synth [] = ([], .ok []) ∧
    batch_synthesize_concurrent synth [] order = .ok [] ∧
    enumFrom 0 ([] : List String) = [] := by
  refine ⟨rfl, ?_, rfl⟩
  have hfe : firstErrorIn ([] : List (Except String (Nat × α))) order = none := by
    induction order with
    | nil => rfl
    | cons i rest ih => simp [firstErrorIn, ih]
  simp only [batch_synthesize_concurrent, gatherModel]
  rw [show taskOutcomes synth ([] : List String) = [] from rfl, hfe]
  rfl

/- ### SSML builder (ssml_utils.py, class SSMLBuilder) -/

/-- Python str.split(sep) with a one-character separator: split at every
occurrence of the separator, keeping empty segments. -/
def splitOnChar (c : Char) : List Char → List (List Char)
  | [] => [[]]
  | x :: xs =>
    let r := splitOnChar c xs
    if x = c then [] :: r
    else
      match r with
      | [] => [[x]]
      | y :: ys => (x :: y) :: ys

/-- SSMLBuilder._extract_language: split the voice name on the hyphen
character; with at least two segments the language is the first two
segments joined by a hyphen, otherwise the default "en-US". -/
def extract_language (voice : String) : String :=
  let parts := splitOnChar '-' voice.data
  if 2 ≤ parts.length then
    String.mk (parts.getD 0 []) ++ "-" ++ String.mk (parts.getD 1 [])
  else "en-US"

/-- State of an SSMLBuilder: the voice name, the language tag and the
accumulated fragment strings (self.elements). -/
structure SSMLBuilder where
  voice : String
  lang : String
  elements : List String
deriving Repr, DecidableEq

/-- SSMLBuilder.__init__: lang is the given language when that is a
non-empty string (python truthiness of `lang or ...`), otherwise it is
extracted from the voice name.  The fragment list starts empty. -/
def SSMLBuilder.new (voice : String) (lang : Option String) : SSMLBuilder :=
  { voice := voice
    lang :=
      match lang with
      | some l => if l = "" then extract_language voice else l
      | none => extract_language voice
    elements := [] }

/-- Python ' '.join. -/
def joinSep (sep : String) : List String → String
  | [] => ""
  | [x] => x
  | x :: y :: ys => x ++ sep ++ joinSep sep (y :: ys)

/-- Python ''.join. -/
def joinAll : List String → String
  | [] => ""
  | x :: xs => x ++ joinAll xs

/-- One optional attribute of add_prosody: rendered as key="value" when
the value is present and truthy (non-empty), nothing otherwise. -/
def optAttr (key : String) (v : Option String) : List String :=
  match v with
  | some s => if s = "" then [] else [key ++ "=\"" ++ s ++ "\""]
  | none => []

/-- The fragment string add_prosody appends. -/
def prosody_fragment (text : String) (rate pitch volume : Option String) : String :=
  let attrs := optAttr "rate" rate ++ optAttr "pitch" pitch ++ optAttr "volume" volume
  let attr_str := if attrs = [] then "" else " " ++ joinSep " " attrs
  "<prosody" ++ attr_str ++ ">" ++ text ++ "</prosody>"

/-- The fragment string add_emphasis appends. -/
def emphasis_fragment (text level : String) : String :=
  "<emphasis level=\"" ++ level ++ "\">" ++ text ++ "</emphasis>"

/-- The fragment string add_break appends. -/
def break_fragment (time : String) : String :=
  "<break time=\"" ++ time ++ "\"/>"

/-- The fragment string add_say_as appends. -/
def say_as_fragment (text interpret_as : String) (format : Option String) : String :=
  let format_attr :=
    match format with
    | some f => if f = "" then "" else " format=\"" ++ f ++ "\""
    | none => ""
  "<say-as interpret-as=\"" ++ interpret_as ++ "\"" ++ format_attr ++ ">"
    ++ text ++ "</say-as>"

/-- The fragment string add_phoneme appends. -/
def phoneme_fragment (text alphabet ph : String) : String :=
  "<phoneme alphabet=\"" ++ alphabet ++ "\" ph=\"" ++ ph ++ "\">" ++ text ++ "</phoneme>"

/-- The fragment string add_sub appends. -/
def sub_fragment (text aliasName : String) : String :=
  "<sub alias=\"" ++ aliasName ++ "\">" ++ text ++ "</sub>"

def SSMLBuilder.add_text (b : SSMLBuilder) (text : String) : SSMLBuilder :=
  { b with elements := b.elements ++ [text] }

def SSMLBuilder.add_prosody (b : SSMLBuilder) (text : String)
    (rate pitch volume : Option String) : SSMLBuilder :=
  { b with elements := b.elements ++ [prosody_fragment text rate pitch volume] }

def SSMLBuilder.add_emphasis (b : SSMLBuilder) (text level : String) : SSMLBuilder :=
  { b with elements := b.elements ++ [emphasis_fragment text level] }

def SSMLBuilder.add_break (b : SSMLBuilder) (time : String) : SSMLBuilder :=
  { b with elements := b.elements ++ [break_fragment time] }

def SSMLBuilder.add_say_as (b : SSMLBuilder) (text interpret_as : String)
    (format : Option String) : SSMLBuilder :=
  { b with elements := b.elements ++ [say_as_fragment text interpret_as format] }

def SSMLBuilder.add_phoneme (b : SSMLBuilder) (text alphabet ph : String) : SSMLBuilder :=
  { b with elements := b.elements ++ [phoneme_fragment text alphabet ph] }

def SSMLBuilder.add_sub (b : SSMLBuilder) (text aliasName : String) : SSMLBuilder :=
  { b with elements := b.elements ++ [sub_fragment text aliasName] }

/-- SSMLBuilder.build: wrap the concatenated fragments in the fixed
speak/voice template, with the stored language and voice names. -/
def SSMLBuilder.build (b : SSMLBuilder) : String :=
  let content := joinAll b.elements
  "<speak version=\"1.0\" xmlns=\"http://www.w3.org/2001/10/synthesis\" xml:lang=\""
    ++ b.lang ++ "\">\n    <voice name=\"" ++ b.voice ++ "\">\n        "
    ++ content ++ "\n    </voice>\n</speak>"

/- ### C6 -/

/-- C6: an SSMLBuilder constructed without an explicit language derives
its language tag from the voice name: with at least two hyphen-delimited
segments it is the first two segments joined by a hyphen, with fewer it
is the default "en-US". -/
theorem extract_language_spec (voice : String) :
    (∀ p0 p1 rest, splitOnChar '-' voice.data = p0 :: p1 :: rest →
      (SSMLBuilder.new voice none).lang = String.mk p0 ++ "-" ++ String.mk p1) ∧
    ((splitOnChar '-' voice.data).length < 2 →
      (SSMLBuilder.new voice none).lang = "en-US") := by
  constructor
  · intro p0 p1 rest hsplit
    show extract_language voice = _
    unfold extract_language
    rw [hsplit]
    simp
  · intro hlen
    show extract_language voice = _
    unfold extract_language
    rw [if_neg (by omega)]

/-- Witness for C6: "en-US-AriaNeural" yields "en-US"; the one-segment
voice name "x" falls back to "en-US". -/
theorem extract_language_spec_witness :
    (SSMLBuilder.new "en-US-AriaNeural" none).lang = "en-US" ∧
    (SSMLBuilder.new "x" none).lang = "en-US" := by
  constructor
  · have h := (extract_language_spec "en-US-AriaNeural").1
      ['e', 'n'] ['U', 'S'] [['A', 'r', 'i', 'a', 'N', 'e', 'u', 'r', 'a', 'l']]
      (by decide)
    rw [h]
    rfl
  · exact (extract_language_spec "x").2 (by decide)

/- ### C9 -/

/-- C9: the language tag is fixed at construction (explicit argument when
truthy, otherwise extracted from the voice name) and every
fragment-appending operation leaves voice and lang unchanged while
appending exactly its one fragment to the element list. -/
theorem builder_ops_preserve_lang (b : SSMLBuilder) (voice l text level time
    interpret_as alphabet ph aliasName : String) (rate pitch volume format : Option String) :
    (SSMLBuilder.new voice none).lang = extract_language voice ∧
    (SSMLBuilder.new voice (some l)).lang
      = (if l = "" then extract_language voice else l) ∧
    (SSMLBuilder.new voice none).elements = [] ∧
    (b.add_text text).voice = b.voice ∧
    (b.add_text text).lang = b.lang ∧
    (b.add_text text).elements = b.elements ++ [text] ∧
    (b.add_prosody text rate pitch volume).voice = b.voice ∧
    (b.add_prosody text rate pitch volume).lang = b.lang ∧
    (b.add_prosody text rate pitch volume).elements
      = b.elements ++ [prosody_fragment text rate pitch volume] ∧
    (b.add_emphasis text level).voice = b.voice ∧
    (b.add_emphasis text level).lang = b.lang ∧
    (b.add_emphasis text level).elements = b.elements ++ [emphasis_fragment text level] ∧
    (b.add_break time).voice = b.voice ∧
    (b.add_break time).lang = b.lang ∧
    (b.add_break time).elements = b.elements ++ [break_fragment time] ∧
    (b.add_say_as text interpret_as format).voice = b.voice ∧
    (b.add_say_as text interpret_as format).lang = b.lang ∧
    (b.add_say_as text interpret_as format).elements
      = b.elements ++ [say_as_fragment text interpret_as format] ∧
    (b.add_phoneme text alphabet ph).voice = b.voice ∧
    (b.add_phoneme text alphabet ph).lang = b.lang ∧
    (b.add_phoneme text alphabet ph).elements
      = b.elements ++ [phoneme_fragment text alphabet ph] ∧
    (b.add_sub text aliasName).voice = b.voice ∧
    (b.add_sub text aliasName).lang = b.lang ∧
    (b.add_sub text aliasName).elements = b.elements ++ [sub_fragment text aliasName] :=
  ⟨rfl, rfl, rfl, rfl, rfl, rfl, rfl, rfl, rfl, rfl, rfl, rfl, rfl, rfl, rfl,
   rfl, rfl, rfl, rfl, rfl, rfl, rfl, rfl, rfl⟩

/- ### SSML validator (ssml_utils.py, class SSMLValidator) -/

/-- An XML element as xml.etree.ElementTree represents it: a tag, an
attribute dictionary and the child elements.  Text content is irrelevant
here because SSMLValidator only iterates over child elements. -/
inductive XElem : Type where
  | mk (tag : String) (attrib : List (String × String)) (children : List XElem)

def XElem.tag : XElem → String
  | .mk t _ _ => t

def XElem.attrib : XElem → List (String × String)
  | .mk _ a _ => a

def XElem.children : XElem → List XElem
  | .mk _ _ cs => cs

/-- Dictionary lookup in an attribute list (keys are unique in an XML
attribute dictionary). -/
def lookupAttr (attrib : List (String × String)) (key : String) : Option String :=
  (attrib.find? (fun p => p.1 = key)).map Prod.snd

/-- Python str.endswith. -/
def strEndsWith (s suf : String) : Bool :=
  suf.data.reverse.isPrefixOf s.data.reverse

def VALID_PROSODY_RATES : List String :=
  ["x-slow", "slow", "medium", "fast", "x-fast"]

def VALID_PROSODY_PITCHES : List String :=
  ["x-low", "low", "medium", "high", "x-high"]

def VALID_PROSODY_VOLUMES : List String :=
  ["silent", "x-soft", "soft", "medium", "loud", "x-loud"]

def VALID_EMPHASIS_LEVELS : List String :=
  ["strong", "moderate", "reduced"]

def VALID_BREAK_STRENGTHS : List String :=
  ["none", "x-weak", "weak", "medium", "strong", "x-strong"]

/-- SSMLValidator._validate_prosody: check the rate, pitch and volume
attributes, when present, against their domains. -/
def validate_prosody (attrib : List (String × String)) : List String :=
  (match lookupAttr attrib "rate" with
   | some rate =>
     if VALID_PROSODY_RATES.contains rate || strEndsWith rate "%"
        || strEndsWith rate "Hz" then []
     else ["Invalid prosody rate: " ++ rate]
   | none => []) ++
  (match lookupAttr attrib "pitch" with
   | some pitch =>
     if VALID_PROSODY_PITCHES.contains pitch || strEndsWith pitch "Hz"
        || strEndsWith pitch "st" then []
     else ["Invalid prosody pitch: " ++ pitch]
   | none => []) ++
  (match lookupAttr attrib "volume" with
   | some volume =>
     if VALID_PROSODY_VOLUMES.contains volume || strEndsWith volume "dB" then []
     else ["Invalid prosody volume: " ++ volume]
   | none => [])

/-- SSMLValidator._validate_emphasis. -/
def validate_emphasis (attrib : List (String × String)) : List String :=
  match lookupAttr attrib "level" with
  | some level =>
    if VALID_EMPHASIS_LEVELS.contains level then []
    else ["Invalid emphasis level: " ++ level]
  | none => []

/-- SSMLValidator._validate_break. -/
def validate_break (attrib : List (String × String)) : List String :=
  (match lookupAttr attrib "time" with
   | some time =>
     if strEndsWith time "s" || strEndsWith time "ms" then []
     else ["Invalid break time format: " ++ time]
   | none => []) ++
  (match lookupAttr attrib "strength" with
   | some strength =>
     if VALID_BREAK_STRENGTHS.contains strength then []
     else ["Invalid break strength: " ++ strength]
   | none => [])

/-- SSMLValidator._validate_say_as. -/
def validate_say_as (attrib : List (String × String)) : List String :=
  match lookupAttr attrib "interpret-as" with
  | some _ => []
  | none => ["say-as element missing interpret-as attribute"]

/-- The per-element dispatch of SSMLValidator._validate_element: only the
exact tags prosody, emphasis, break and say-as are checked. -/
def elemErrors (tag : String) (attrib : List (String × String)) : List String :=
  if tag = "prosody" then validate_prosody attrib
  else if tag = "emphasis" then validate_emphasis attrib
  else if tag = "break" then validate_break attrib
  else if tag = "say-as" then validate_say_as attrib
  else []

mutual

/-- SSMLValidator._validate_element: errors of this element followed by
the errors of all descendants, collected in document order. -/
def walkErrors : XElem → List String
  | .mk t a cs => elemErrors t a ++ walkErrorsList cs

def walkErrorsList : List XElem → List String
  | [] => []
  | c :: cs => walkErrors c ++ walkErrorsList cs

end

/-- SSMLValidator.validate after a successful parse: root-element checks
(root tag, version attribute, xmlns attribute, in this order) followed by
the recursive element walk.  The string-level entry point first parses
the markup with xml.etree.ElementTree.fromstring and returns the single
parse diagnostic on failure; parsed inputs are represented here by the
resulting element tree. -/
def validate (root : XElem) : List String :=
  (if root.tag ≠ "speak" then ["Root element must be <speak>"] else []) ++
  (if (lookupAttr root.attrib "version").isNone then
    ["Missing version attribute in <speak> element"] else []) ++
  (if (lookupAttr root.attrib "xmlns").isNone then
    ["Missing xmlns attribute in <speak> element"] else []) ++
  walkErrors root

/-- Models the element tree xml.etree.ElementTree.fromstring (the python
stdlib parser used by SSMLValidator.validate) returns for the string
SSMLBuilder.build produces, for XML-safe fragment content.  ElementTree
resolves the default namespace declared by the xmlns attribute of the
speak element: every element in that namespace is reported with its tag
in qualified Clark notation (the namespace URI in braces before the
local name), the xmlns declaration itself is not kept in the attribute
dictionary, and xml:lang is reported under the qualified xml namespace.
The children parameter stands for the parsed fragment elements, which
are themselves in qualified form. -/
def etParseBuild (b : SSMLBuilder) (children : List XElem) : XElem :=
  .mk "\x7bhttp://www.w3.org/2001/10/synthesis\x7dspeak"
    [("version", "1.0"), ("\x7bhttp://www.w3.org/XML/1998/namespace\x7dlang", b.lang)]
    [.mk "\x7bhttp://www.w3.org/2001/10/synthesis\x7dvoice" [("name", b.voice)]
      children]

/- ### C3 -/

/-- C3 (code bug): validating the serialized output of the builder never
yields an empty diagnostic list.  For the document built by
SSMLBuilder("en-US-AriaNeural").add_prosody("hello", rate="slow"), whose
build() string is spelled out in the first conjunct, ElementTree reports
the root tag in Clark notation and drops the xmlns declaration from the
attribute dictionary, so the validator's root-tag and xmlns checks both
fail and validation returns two diagnostics instead of zero. -/
theorem validate_rejects_builder_output :
    ((SSMLBuilder.new "en-US-AriaNeural" none).add_prosody "hello"
        (some "slow") none none).build
      = "<speak version=\"1.0\" xmlns=\"http://www.w3.org/2001/10/synthesis\" xml:lang=\"en-US\">\n    <voice name=\"en-US-AriaNeural\">\n        <prosody rate=\"slow\">hello</prosody>\n    </voice>\n</speak>" ∧
    validate (etParseBuild
        ((SSMLBuilder.new "en-US-AriaNeural" none).add_prosody "hello"
          (some "slow") none none)
        [XElem.mk "\x7bhttp://www.w3.org/2001/10/synthesis\x7dprosody"
          [("rate", "slow")] []])
      = ["Root element must be <speak>",
         "Missing xmlns attribute in <speak> element"] ∧
    ["Root element must be <speak>", "Missing xmlns attribute in <speak> element"]
      ≠ ([] : List String) := by
  exact ⟨rfl, rfl, by decide⟩

/- ### C5 -/

/-- Models ET.fromstring of the namespace-free markup
<speak version="1.0"><prosody rate="blurple">x</prosody><break time="5"/></speak>:
no namespace is declared, so every tag is reported unqualified. -/
def blurpleDoc : XElem :=
  .mk "speak" [("version", "1.0")]
    [.mk "prosody" [("rate", "blurple")] [], .mk "break" [("time", "5")] []]

/-- C5 (amended): in markup without a namespace declaration, an
out-of-domain prosody rate yields exactly the one diagnostic naming the
value, an unitless break time yields exactly the one diagnostic naming
the value, and validation collects all diagnostics of a document rather
than stopping at the first: the document holding both a prosody rate
"blurple" and a break time "5" yields both diagnostics (each exactly
once), after the unconditional root diagnostics. -/
theorem validator_domain_diagnostics :
    (∀ rate, VALID_PROSODY_RATES.contains rate = false →
      strEndsWith rate "%" = false → strEndsWith rate "Hz" = false →
      validate_prosody [("rate", rate)] = ["Invalid prosody rate: " ++ rate]) ∧
    (∀ time, strEndsWith time "s" = false → strEndsWith time "ms" = false →
      validate_break [("time", time)] = ["Invalid break time format: " ++ time]) ∧
    validate blurpleDoc = ["Missing xmlns attribute in <speak> element",
      "Invalid prosody rate: blurple", "Invalid break time format: 5"] ∧
    "Invalid prosody rate: blurple" ∈ validate blurpleDoc ∧
    "Invalid break time format: 5" ∈ validate blurpleDoc ∧
    (validate blurpleDoc).count "Invalid prosody rate: blurple" = 1 := by
  have hval : validate blurpleDoc = ["Missing xmlns attribute in <speak> element",
      "Invalid prosody rate: blurple", "Invalid break time format: 5"] := by
    rfl
  refine ⟨?_, ?_, hval, by rw [hval]; decide, by rw [hval]; decide,
    by rw [hval]; decide⟩
  · intro rate h1 h2 h3
    have hlook : lookupAttr [("rate", rate)] "rate" = some rate := rfl
    have hlookp : lookupAttr [("rate", rate)] "pitch" = none := rfl
    have hlookv : lookupAttr [("rate", rate)] "volume" = none := rfl
    simp only [validate_prosody, hlook, hlookp, hlookv]
    rw [h1, h2, h3]
    simp
  · intro time h1 h2
    have hlook : lookupAttr [("time", time)] "time" = some time := rfl
    have hlooks : lookupAttr [("time", time)] "strength" = none := rfl
    simp only [validate_break, hlook, hlooks]
    rw [h1, h2]
    simp

/-- Witness for C5 at the offending values of the claim. -/
theorem validator_domain_diagnostics_witness :
    validate_prosody [("rate", "blurple")] = ["Invalid prosody rate: blurple"] ∧
    validate_break [("time", "5")] = ["Invalid break time format: 5"] :=
  ⟨validator_domain_diagnostics.1 "blurple" (by decide) (by decide) (by decide),
   validator_domain_diagnostics.2.1 "5" (by decide) (by decide)⟩

/-- Models ET.fromstring of
<speak version="1.0" xmlns="http://www.w3.org/2001/10/synthesis"><prosody rate="blurple">x</prosody></speak>:
the declared default namespace qualifies every tag (Clark notation) and
the declaration is not kept in the attribute dictionary. -/
def nsBlurpleDoc : XElem :=
  .mk "\x7bhttp://www.w3.org/2001/10/synthesis\x7dspeak" [("version", "1.0")]
    [.mk "\x7bhttp://www.w3.org/2001/10/synthesis\x7dprosody"
      [("rate", "blurple")] []]

/-- C5 counterexample: a serialized input that declares the SSML
namespace and contains a prosody element with rate "blurple" yields no
diagnostic mentioning that value at all — the qualified tag does not
match the validator's dispatch — refuting the claim over every
serialized input. -/
theorem namespaced_prosody_not_checked_cex :
    validate nsBlurpleDoc = ["Root element must be <speak>",
      "Missing xmlns attribute in <speak> element"] ∧
    "Invalid prosody rate: blurple" ∉ validate nsBlurpleDoc := by
  have hval : validate nsBlurpleDoc = ["Root element must be <speak>",
      "Missing xmlns attribute in <speak> element"] := by
    rfl
  exact ⟨hval, by rw [hval]; decide⟩

/- ### C4: the admission semaphore of batch_synthesize_concurrent -/

/-- State of the semaphore-guarded execution of
batch_synthesize_concurrent: the semaphore counter (asyncio.Semaphore
value), the number of tasks currently inside the `async with semaphore`
block (outstanding synthesis calls), and the tasks still waiting to
acquire resp. already finished. -/
structure SemState where
  avail : Int
  running : Nat
  waiting : Nat
  done : Nat

/-- The two transitions of the admission mechanism: a waiting task
acquires the semaphore only when the counter is positive (decrementing
it and starting its synthesis call), and a running task finishes its
call and releases the semaphore (incrementing the counter).  These are
the only operations touching the counter, and the event loop runs them
atomically. -/
inductive SemStep : SemState → SemState → Prop
  | acquire (s : SemState) (h0 : 0 < s.avail) (hw : 0 < s.waiting) :
      SemStep s ⟨s.avail - 1, s.running + 1, s.waiting - 1, s.done⟩
  | release (s : SemState) (hr : 0 < s.running) :
      SemStep s ⟨s.avail + 1, s.running - 1, s.waiting, s.done + 1⟩

/-- Initial state of a batch of N texts with concurrency limit K:
asyncio.Semaphore(max_concurrent) starts at K, no call is outstanding,
all N tasks wait. -/
def initState (K N : Nat) : SemState := ⟨K, 0, N, 0⟩

/-- The states an execution of batch_synthesize_concurrent with
concurrency limit K and N texts can reach. -/
inductive Reachable (K N : Nat) : SemState → Prop
  | init : Reachable K N (initState K N)
  | step {s t : SemState} : Reachable K N s → SemStep s t → Reachable K N t

theorem reachable_invariant (K N : Nat) (s : SemState)
    (h : Reachable K N s) : s.avail + s.running = K ∧ 0 ≤ s.avail := by
  induction h with
  | init => simp [initState]
  | step _ hstep ih =>
    obtain ⟨h1, h2⟩ := ih
    cases hstep with
    | acquire h0 hw =>
      dsimp only
      constructor <;> push_cast at h1 ⊢ <;> omega
    | release hr =>
      dsimp only
      constructor <;> push_cast at h1 ⊢ <;> omega

/-- C4: in every state reachable during an execution of
batch_synthesize_concurrent with concurrency limit K, at most K
synthesis calls are outstanding and the semaphore counter is never
negative (so no release can drive the outstanding count below zero). -/
theorem semaphore_bound_invariant (K N : Nat) (s : SemState)
    (h : Reachable K N s) : s.running ≤ K ∧ 0 ≤ s.avail := by
  obtain ⟨h1, h2⟩ := reachable_invariant K N s h
  constructor
  · omega
  · exact h2

/-- Witness for C4: the initial state of a batch of 3 texts with
concurrency limit 2 is reachable and satisfies the bound. -/
theorem semaphore_bound_invariant_witness :
    (initState 2 3).running ≤ 2 ∧ 0 ≤ (initState 2 3).avail :=
  semaphore_bound_invariant 2 3 (initState 2 3) Reachable.init

/- ### C8: TTSConfig (config_manager.py) -/

/-- The TTSConfig dataclass fields (python ints are unbounded, hence
Int). -/
structure TTSConfig where
  default_voice : String
  output_format : String
  output_directory : String
  auto_play : Bool
  cache_voices : Bool
  max_retries : Int
  timeout : Int
  rate : String
  pitch : String
  volume : String
  ssml : Bool
  batch_size : Int
  max_concurrent : Int

/-- TTSConfig.__post_init__: the validation run at construction (load)
time, before any synthesis; the first violated constraint raises a
ValueError with its message, otherwise the configuration is accepted. -/
def TTSConfig.post_init (c : TTSConfig) : Except String TTSConfig :=
  if c.max_retries < 0 then .error "max_retries must be non-negative"
  else if c.timeout ≤ 0 then .error "timeout must be positive"
  else if c.default_voice = "" then .error "default_voice cannot be empty"
  else if c.batch_size ≤ 0 then .error "batch_size must be positive"
  else if c.max_concurrent ≤ 0 then .error "max_concurrent must be positive"
  else .ok c

/-- C8: construction of a TTSConfig raises exactly when one of the
declared constraints is violated — it succeeds iff max_retries ≥ 0,
timeout > 0, default_voice non-empty, batch_size > 0 and
max_concurrent > 0, and it raises some configuration error iff one of
those constraints fails. -/
theorem config_validation_iff (c : TTSConfig) :
    (TTSConfig.post_init c = .ok c ↔
      (0 ≤ c.max_retries ∧ 0 < c.timeout ∧ c.default_voice ≠ "" ∧
        0 < c.batch_size ∧ 0 < c.max_concurrent)) ∧
    ((∃ m, TTSConfig.post_init c = .error m) ↔
      (c.max_retries < 0 ∨ c.timeout ≤ 0 ∨ c.default_voice = "" ∨
        c.batch_size ≤ 0 ∨ c.max_concurrent ≤ 0)) := by
  unfold TTSConfig.post_init
  split_ifs with h1 h2 h3 h4 h5 <;> simp_all

/- ### C10: TTSClient.synthesize_text never returns empty audio -/

/-- The streamed chunks of edge_tts.Communicate.stream(): each chunk has
a type tag and a data payload (bytes as a list of byte values). -/
def collectAudio : List (String × List Nat) → List Nat
  | [] => []
  | c :: cs => (if c.1 = "audio" then c.2 else []) ++ collectAudio cs

/-- TTSClient.synthesize_text, given the chunk stream the service
returns for the text: concatenate the data of the audio-typed chunks in
stream order; if nothing was collected raise a TTSError (re-wrapped by
the surrounding handler), otherwise return the audio bytes. -/
def synthesize_text (text : String) (chunks : List (String × List Nat)) :
    Except String (List Nat) :=
  let audio := collectAudio chunks
  if audio = [] then
    .error ("Failed to synthesize text: No audio data generated for text: "
      ++ String.mk (text.data.take 50) ++ "...")
  else .ok audio

/-- C10: synthesize_text never returns an empty byte sequence — whenever
it returns successfully, the returned audio data is non-empty; a stream
that yields no audio chunks produces a TTSError instead. -/
theorem synthesize_text_nonempty (text : String)
    (chunks : List (String × List Nat)) (d : List Nat)
    (h : synthesize_text text chunks = .ok d) : d ≠ [] := by
  unfold synthesize_text at h
  by_cases he : collectAudio chunks = []
  · rw [if_pos he] at h
    exact absurd h (by simp)
  · rw [if_neg he] at h
    simp only [Except.ok.injEq] at h
    rw [← h]
    exact he

/-- Witness for C10: a stream with one audio chunk of one byte yields
that byte, which is non-empty. -/
theorem synthesize_text_nonempty_witness :
    synthesize_text "hi" [("audio", [7])] = .ok [7] ∧ [7] ≠ ([] : List Nat) :=
  ⟨rfl, synthesize_text_nonempty "hi" [("audio", [7])] [7] rfl⟩

end HelloEdgeTTS
